import Mathlib

/-!
Verification of the file-action state-reducer model of the chonky-website
repository.  The repository material is documentation (MDX pages with
playground snippets) describing the `defineFileAction` model: a registry of
declarative action definitions, each optionally contributing a sort-key
selector, a view configuration, a boolean option descriptor, or a
selection-transform function, applied by a central reducer to a UI state.
The reducer itself is described by the specification but not implemented in
the excerpt, so it is modelled from the spec below; the concrete action
definitions and the emoji icon component are translated from the source
pages directly.
-/

namespace Chonky

/-- File view modes, from the `FileViewMode` enum in the source
(`list`, `compact`, `grid`). -/
inductive FileViewMode where
  | list
  | compact
  | grid
  deriving DecidableEq

/-- View configuration, from the source union
`FileViewConfig = FileViewConfigList | FileViewConfigGrid`:
a list configuration carries an entry height, a grid configuration carries a
mode (compact or grid), an entry width and an entry height. -/
inductive FileViewConfig where
  | listConfig (entryHeight : Nat)
  | gridConfig (mode : FileViewMode) (entryWidth : Nat) (entryHeight : Nat)
  deriving DecidableEq

/-- Sort direction: ascending or descending. -/
inductive SortDirection where
  | asc
  | desc
  deriving DecidableEq

/-- Direction toggling (ascending ↔ descending). -/
def SortDirection.toggle : SortDirection → SortDirection
  | .asc => .desc
  | .desc => .asc

/-- Minimal file record, from the `FileData` shapes used in the source pages:
an id and a name, plus the optional fields the example actions read
(`isHidden` for the hidden-file filter, `size` for the size sort key,
`icon` for custom icons). -/
structure FileData where
  id : String
  name : String
  icon : Option String := none
  isHidden : Bool := false
  size : Option Nat := none
  deriving DecidableEq

/-- Boolean option descriptor, from the `FileActionOption` interface in the
source: a unique option id and a default value. -/
structure FileActionOption where
  id : String
  defaultValue : Bool
  deriving DecidableEq

/-- Button metadata, from the `FileActionButton` interface in the source.
Presentation-only: the reducer never reads it. -/
structure FileActionButton where
  name : String
  toolbar : Bool := false
  contextMenu : Bool := false
  group : Option String := none
  tooltip : Option String := none
  icon : Option String := none
  iconOnly : Bool := false
  deriving DecidableEq

/-- Data passed to a selection transform, from the `FileSelectionTransform`
type in the source: the previous selection, the file-id universe, the
file-by-id lookup map, and the hidden-file-id set.  Selections and id sets
are represented as lists of identifiers regarded as sets via membership. -/
structure SelectionTransformData where
  prevSelection : List String
  fileIds : List String
  fileMap : String → Option FileData
  hiddenFileIds : List String

/-- A selection transform returns the new selection, or `none` for
"no change". -/
def FileSelectionTransform := SelectionTransformData → Option (List String)

/-- A file filter is a predicate on a nullable file record, from the
`FileFilter` type in the source. -/
def FileFilter := Option FileData → Bool

/-- A sort-key selector maps a nullable file record to a comparable key
(the reducer itself never invokes it; only its presence matters to the
state transition).  The key type is specialised to `Option Nat`, matching
the `file ? file.size : undefined` selector of the source example. -/
def FileSortKeySelector := Option FileData → Option Nat

/-- File action definition, from the `FileAction` interface described in the
source: a required id and the optional capability fields (sort-key selector,
view configuration, boolean option descriptor, selection transform, file
filter, selection requirement) plus presentation-only trigger metadata. -/
structure FileAction where
  id : String
  requiresSelection : Bool := false
  fileFilter : Option FileFilter := none
  sortKeySelector : Option FileSortKeySelector := none
  fileViewConfig : Option FileViewConfig := none
  option : Option FileActionOption := none
  selectionTransform : Option FileSelectionTransform := none
  button : Option FileActionButton := none
  hotkeys : List String := []

/-- UI state slice owned by the reducer, from the spec data model: the
currently-active sort action identifier and direction, the view
configuration, the option-id to boolean mapping, and the current selection
(a set of file identifiers). -/
structure UIState where
  sortActionId : Option String
  sortDirection : SortDirection
  viewConfig : FileViewConfig
  options : List (String × Bool)
  selection : List String
  deriving DecidableEq

/-- Lookup in the options mapping. -/
def lookupOpt (m : List (String × Bool)) (k : String) : Option Bool :=
  (m.find? (fun p => p.1 == k)).map Prod.snd

/-- Update (or insert) a flag in the options mapping, keeping all other
entries. -/
def setOpt (m : List (String × Bool)) (k : String) (v : Bool) :
    List (String × Bool) :=
  match m with
  | [] => [(k, v)]
  | (k₂, v₂) :: rest =>
    if k₂ == k then (k, v) :: rest else (k₂, v₂) :: setOpt rest k v

/-- Registry lookup: find the action with the given identifier. -/
def findAction (r : List FileAction) (actionId : String) : Option FileAction :=
  r.find? (fun a => a.id == actionId)

/-- Modelled from the spec: the sort effect of the reducer (the reducer
implementation is not in the excerpt).  If the action defines a sort-key
selector: when the action's identifier differs from the previously-active
sort action, set the sort key to this action and the direction to
ascending; when the same action is triggered again consecutively, toggle
the direction. -/
def applySort (s : UIState) (a : FileAction) : UIState :=
  match a.sortKeySelector with
  | none => s
  | some _ =>
    if s.sortActionId = some a.id then
      { s with sortDirection := s.sortDirection.toggle }
    else
      { s with sortActionId := some a.id, sortDirection := .asc }

/-- Modelled from the spec: the view effect of the reducer.  If the action
defines a view configuration, replace the active view configuration
wholesale. -/
def applyView (s : UIState) (a : FileAction) : UIState :=
  match a.fileViewConfig with
  | none => s
  | some cfg => { s with viewConfig := cfg }

/-- Modelled from the spec: the boolean-option effect of the reducer.  If
the action defines an option descriptor, toggle the flag at the
descriptor's id; when the flag is not yet present it is initialised to the
descriptor's default value before toggling. -/
def applyOption (s : UIState) (a : FileAction) : UIState :=
  match a.option with
  | none => s
  | some opt =>
    let cur := (lookupOpt s.options opt.id).getD opt.defaultValue
    { s with options := setOpt s.options opt.id (!cur) }

/-- Modelled from the spec: the selection effect of the reducer.  If the
action defines a selection transform, invoke it with the previous
selection, the file-id universe, the file map and the hidden-file-id set;
replace the selection when it returns a new one, leave it untouched when it
returns "no change" (`none`). -/
def applySelection (s : UIState) (a : FileAction) (fileUniverse : List String)
    (fileMap : String → Option FileData) (hiddenFileIds : List String) :
    UIState :=
  match a.selectionTransform with
  | none => s
  | some transform =>
    match transform ⟨s.selection, fileUniverse, fileMap, hiddenFileIds⟩ with
    | none => s
    | some sel => { s with selection := sel }

/-- Modelled from the spec: the `ActionStateReducer` contract
`apply(state, registry, actionId, fileUniverse, hiddenFileIds)` (with the
file-by-id map from the file data boundary), whose implementation is not in
the excerpt.  An unknown action identifier is a no-op; otherwise all
applicable declared effects (sort, view, option, selection) are applied to
produce the next state. -/
def apply (s : UIState) (r : List FileAction) (actionId : String)
    (fileUniverse : List String) (fileMap : String → Option FileData)
    (hiddenFileIds : List String) : UIState :=
  match findAction r actionId with
  | none => s
  | some a =>
    applySelection (applyOption (applyView (applySort s a) a) a)
      a fileUniverse fileMap hiddenFileIds

/-- Modelled from the spec: the enablement predicate (its implementation is
not in the excerpt).  An action with `requiresSelection = true` is disabled
when the selection is empty; an action with a file filter is disabled when
no selected file, looked up in the file map, satisfies the filter. -/
def actionEnabled (a : FileAction) (selection : List String)
    (fileMap : String → Option FileData) : Bool :=
  (!a.requiresSelection || !selection.isEmpty) &&
    (match a.fileFilter with
     | none => true
     | some f => selection.any (fun fid => f (fileMap fid)))

/-- Reachability by a sequence of reducer steps over a fixed registry and
file-id universe; the file map and hidden-file-id set may differ per
trigger. -/
inductive Reachable (r : List FileAction) (fileUniverse : List String) :
    UIState → UIState → Prop where
  | refl (s : UIState) : Reachable r fileUniverse s s
  | step (s t : UIState) (actionId : String)
      (fileMap : String → Option FileData) (hiddenFileIds : List String) :
      Reachable r fileUniverse s t →
      Reachable r fileUniverse s
        (apply t r actionId fileUniverse fileMap hiddenFileIds)

/-- Empty file map, for contexts that supply no file records. -/
def emptyFileMap : String → Option FileData := fun _ => none

/-- An initial UI state: no active sort, ascending direction, list view,
no option flags, empty selection. -/
def initialState : UIState :=
  { sortActionId := none
    sortDirection := .asc
    viewConfig := .listConfig 30
    options := []
    selection := [] }

/-- The `SortFilesBySize` action from the source: sort-key selector
`(file) => file ? file.size : undefined` and a toolbar button. -/
def sortFilesBySize : FileAction :=
  { id := "sort_files_by_size"
    sortKeySelector := some (fun f =>
      match f with
      | none => none
      | some file => file.size)
    button := some { name := "Sort by size", toolbar := true,
                     group := some "Options" } }

/-- The `executeOrder66` action from the source triggers example. -/
def executeOrder66 : FileAction :=
  { id := "execute_order_66"
    hotkeys := ["ctrl+o"]
    button := some { name := "Execute Order 66", toolbar := true,
                     contextMenu := true, icon := some "flash" } }

/-- The `deleteHiddenFiles` action from the source triggers example:
requires a selection and filters via `(file) => file && file.isHidden`
(a null file is falsy, hence rejected). -/
def deleteHiddenFiles : FileAction :=
  { id := "delete_hidden_files"
    requiresSelection := true
    fileFilter := some (fun f =>
      match f with
      | none => false
      | some file => file.isHidden)
    hotkeys := ["ctrl+u"]
    button := some { name := "Delete hidden files", toolbar := true,
                     contextMenu := true, icon := some "trash" } }

/-- The `useGiantThumbnails` action from the source state example: grid
view with 300×300 entries. -/
def useGiantThumbnails : FileAction :=
  { id := "use_giant_thumbnails"
    button := some { name := "Giant thumbs", toolbar := true,
                     contextMenu := true, icon := some "largeThumbnail" }
    fileViewConfig := some (.gridConfig .grid 300 300) }

/-- The loop body of the `selectRandomFiles` transform from the source: walk
`fileIds`, and add each id that is not hidden and for which the random draw
`Math.random() > 0.5` (modelled by the boolean oracle `random` indexed by
draw count) comes out true.  The draw is only made for non-hidden ids,
matching the short-circuit conjunction in the source. -/
def selectRandomLoop (random : Nat → Bool) :
    List String → List String → Nat → List String
  | [], _, _ => []
  | fid :: rest, hiddenFileIds, k =>
    if fid ∈ hiddenFileIds then
      selectRandomLoop random rest hiddenFileIds k
    else if random k then
      fid :: selectRandomLoop random rest hiddenFileIds (k + 1)
    else
      selectRandomLoop random rest hiddenFileIds (k + 1)

/-- The `selectRandomFiles` action from the source state example,
parameterised by the outcome oracle of the `Math.random()` draws: its
selection transform builds a new selection out of the non-hidden file ids
that win their random draw, and always returns it (never "no change"). -/
def selectRandomFiles (random : Nat → Bool) : FileAction :=
  { id := "select_random_files"
    button := some { name := "Random selection", toolbar := true,
                     contextMenu := true, icon := some "selectAllFiles" }
    selectionTransform := some (fun d =>
      some (selectRandomLoop random d.fileIds d.hiddenFileIds 0)) }

/-- Icon component props, from the `ChonkyIconProps` interface in the
source (the opaque `style` field is omitted; the component forwards it
unread). -/
structure ChonkyIconProps where
  icon : String
  spin : Option Bool := none
  className : Option String := none
  fixedWidth : Option Bool := none
  deriving DecidableEq

/-- The rendering outcome of the emoji icon component: either a span
holding an emoji string, or the fallback `ChonkyIconFA` component with the
props forwarded. -/
inductive RenderedIcon where
  | emojiSpan (emoji : String)
  | chonkyIconFA (props : ChonkyIconProps)
  deriving DecidableEq

/-- The `myEmojiMap` dictionary from the source: three icon names mapped to
emoji strings; every other key is absent. -/
def myEmojiMap (iconName : String) : Option String :=
  if iconName = "bentoEmoji" then some "🍱"
  else if iconName = "angryEmoji" then some "😠"
  else if iconName = "japanEmoji" then some "🗾"
  else none

/-- The `MyEmojiIcon` component from the source: look the icon name up in
the emoji map; when an emoji is found render it in a span, otherwise
render `ChonkyIconFA` with all props forwarded unchanged. -/
def MyEmojiIcon (props : ChonkyIconProps) : RenderedIcon :=
  match myEmojiMap props.icon with
  | some emoji => .emojiSpan emoji
  | none => .chonkyIconFA props

/-! ### Concrete values used by the witnesses and counterexamples -/

/-- A demo registry holding the example actions from the source pages. -/
def demoRegistry : List FileAction :=
  [sortFilesBySize, executeOrder66, deleteHiddenFiles]

/-- Modelled from the spec: the example action of spec §8 owning the
`show_hidden` boolean option flag, defaulting to `false` (no such concrete
definition appears in the excerpt). -/
def showHiddenFilesAction : FileAction :=
  { id := "show_hidden_files"
    option := some { id := "show_hidden", defaultValue := false } }

/-- A selection transform that always reports "no change", as described on
the source page (`return null if you want to leave the selection
unchanged`). -/
def noChangeTransform : FileSelectionTransform := fun _ => none

/-- A test action whose selection transform always reports "no change". -/
def noChangeAction : FileAction :=
  { id := "no_change_action"
    selectionTransform := some noChangeTransform }

/-- A state sorted descending on a different sort action, used by the C4
witness. -/
def otherSortState : UIState :=
  { initialState with
    sortActionId := some "sort_files_by_name"
    sortDirection := .desc }

/-- A selection transform that always selects an identifier outside any
file universe. -/
def ghostTransform : FileSelectionTransform := fun _ => some ["ghost-file"]

/-- A test action whose selection transform selects an identifier outside
the file universe. -/
def ghostAction : FileAction :=
  { id := "ghost_selector"
    selectionTransform := some ghostTransform }

/-- Concrete selection-transform input data used by the C10 witness: two
files, one of them hidden. -/
def randomDemoData : SelectionTransformData :=
  { prevSelection := []
    fileIds := ["zxc", "bcv"]
    fileMap := emptyFileMap
    hiddenFileIds := ["bcv"] }

/-! ### Frame lemmas: each effect stage only touches its own fields -/

lemma applySort_options (s : UIState) (a : FileAction) :
    (applySort s a).options = s.options := by
  unfold applySort
  split
  · rfl
  · split <;> rfl

lemma applySort_selection (s : UIState) (a : FileAction) :
    (applySort s a).selection = s.selection := by
  unfold applySort
  split
  · rfl
  · split <;> rfl

lemma applyView_options (s : UIState) (a : FileAction) :
    (applyView s a).options = s.options := by
  unfold applyView
  split <;> rfl

lemma applyView_selection (s : UIState) (a : FileAction) :
    (applyView s a).selection = s.selection := by
  unfold applyView
  split <;> rfl

lemma applyView_sortActionId (s : UIState) (a : FileAction) :
    (applyView s a).sortActionId = s.sortActionId := by
  unfold applyView
  split <;> rfl

lemma applyView_sortDirection (s : UIState) (a : FileAction) :
    (applyView s a).sortDirection = s.sortDirection := by
  unfold applyView
  split <;> rfl

lemma applyOption_selection (s : UIState) (a : FileAction) :
    (applyOption s a).selection = s.selection := by
  unfold applyOption
  split <;> rfl

lemma applyOption_sortActionId (s : UIState) (a : FileAction) :
    (applyOption s a).sortActionId = s.sortActionId := by
  unfold applyOption
  split <;> rfl

lemma applyOption_sortDirection (s : UIState) (a : FileAction) :
    (applyOption s a).sortDirection = s.sortDirection := by
  unfold applyOption
  split <;> rfl

lemma applySelection_options (s : UIState) (a : FileAction)
    (fu : List String) (fm : String → Option FileData) (hid : List String) :
    (applySelection s a fu fm hid).options = s.options := by
  unfold applySelection
  split
  · rfl
  · split <;> rfl

lemma applySelection_sortActionId (s : UIState) (a : FileAction)
    (fu : List String) (fm : String → Option FileData) (hid : List String) :
    (applySelection s a fu fm hid).sortActionId = s.sortActionId := by
  unfold applySelection
  split
  · rfl
  · split <;> rfl

lemma applySelection_sortDirection (s : UIState) (a : FileAction)
    (fu : List String) (fm : String → Option FileData) (hid : List String) :
    (applySelection s a fu fm hid).sortDirection = s.sortDirection := by
  unfold applySelection
  split
  · rfl
  · split <;> rfl

/-! ### Characterisation lemmas for the individual stages -/

lemma apply_eq_of_findAction (s : UIState) (r : List FileAction)
    (actionId : String) (a : FileAction) (fu : List String)
    (fm : String → Option FileData) (hid : List String)
    (h : findAction r actionId = some a) :
    apply s r actionId fu fm hid =
      applySelection (applyOption (applyView (applySort s a) a) a)
        a fu fm hid := by
  unfold apply
  rw [h]

lemma apply_eq_of_findAction_none (s : UIState) (r : List FileAction)
    (actionId : String) (fu : List String) (fm : String → Option FileData)
    (hid : List String) (h : findAction r actionId = none) :
    apply s r actionId fu fm hid = s := by
  unfold apply
  rw [h]

lemma applySort_sortActionId_of_isSome (s : UIState) (a : FileAction)
    (h : a.sortKeySelector.isSome) :
    (applySort s a).sortActionId = some a.id := by
  unfold applySort
  cases hsel : a.sortKeySelector with
  | none => rw [hsel] at h; simp at h
  | some sel =>
    dsimp only
    split
    · rename_i heq
      simpa using heq
    · rfl

lemma applySort_sortDirection_of_same (s : UIState) (a : FileAction)
    (h : a.sortKeySelector.isSome) (he : s.sortActionId = some a.id) :
    (applySort s a).sortDirection = s.sortDirection.toggle := by
  unfold applySort
  cases hsel : a.sortKeySelector with
  | none => rw [hsel] at h; simp at h
  | some sel =>
    dsimp only
    rw [if_pos he]

lemma applySort_sortDirection_of_ne (s : UIState) (a : FileAction)
    (h : a.sortKeySelector.isSome) (he : s.sortActionId ≠ some a.id) :
    (applySort s a).sortDirection = .asc := by
  unfold applySort
  cases hsel : a.sortKeySelector with
  | none => rw [hsel] at h; simp at h
  | some sel =>
    dsimp only
    rw [if_neg he]

lemma applyOption_options_of_some (s : UIState) (a : FileAction)
    (opt : FileActionOption) (h : a.option = some opt) :
    (applyOption s a).options =
      setOpt s.options opt.id
        (!((lookupOpt s.options opt.id).getD opt.defaultValue)) := by
  unfold applyOption
  rw [h]

lemma applySelection_selection_none (s : UIState) (a : FileAction)
    (fu : List String) (fm : String → Option FileData) (hid : List String)
    (transform : FileSelectionTransform)
    (ht : a.selectionTransform = some transform)
    (hres : transform ⟨s.selection, fu, fm, hid⟩ = none) :
    (applySelection s a fu fm hid).selection = s.selection := by
  unfold applySelection
  rw [ht]
  dsimp only
  rw [hres]

/-! ### Lemmas about the options association map -/

lemma lookupOpt_setOpt_self (m : List (String × Bool)) (k : String)
    (v : Bool) : lookupOpt (setOpt m k v) k = some v := by
  induction m with
  | nil => simp [lookupOpt, setOpt]
  | cons head rest ih =>
    obtain ⟨k₂, v₂⟩ := head
    by_cases hk : (k₂ == k) = true
    · simp [setOpt, hk, lookupOpt]
    · simp only [setOpt, hk, if_false, Bool.false_eq_true]
      simp only [lookupOpt] at ih ⊢
      rw [List.find?_cons_of_neg]
      · exact ih
      · simpa using hk

lemma lookupOpt_setOpt_of_ne (m : List (String × Bool)) (k k' : String)
    (v : Bool) (h : k' ≠ k) :
    lookupOpt (setOpt m k v) k' = lookupOpt m k' := by
  induction m with
  | nil =>
    simp only [setOpt, lookupOpt, List.find?]
    have : (k == k') = false := by simpa using fun he => h he.symm
    simp [this]
  | cons head rest ih =>
    obtain ⟨k₂, v₂⟩ := head
    by_cases hk : (k₂ == k) = true
    · have hkk : k₂ = k := by simpa using hk
      subst hkk
      have h1 : (k₂ == k') = false := by simpa using fun he => h he.symm
      simp [setOpt, lookupOpt, List.find?, h1]
    · simp only [setOpt, hk, if_false, Bool.false_eq_true]
      by_cases h2 : (k₂ == k') = true
      · simp [lookupOpt, List.find?, h2]
      · simp only [lookupOpt] at ih ⊢
        rw [List.find?_cons_of_neg, List.find?_cons_of_neg]
        · exact ih
        · simpa using h2
        · simpa using h2

lemma isSome_lookupOpt_setOpt (m : List (String × Bool)) (k k' : String)
    (v : Bool) (h : (lookupOpt m k').isSome) :
    (lookupOpt (setOpt m k v) k').isSome := by
  by_cases he : k' = k
  · subst he
    rw [lookupOpt_setOpt_self]
    rfl
  · rw [lookupOpt_setOpt_of_ne m k k' v he]
    exact h

lemma applySelection_selection_cases (s : UIState) (a : FileAction)
    (fu : List String) (fm : String → Option FileData)
    (hid : List String) :
    (applySelection s a fu fm hid).selection = s.selection ∨
    ∃ transform out, a.selectionTransform = some transform ∧
      transform ⟨s.selection, fu, fm, hid⟩ = some out ∧
      (applySelection s a fu fm hid).selection = out := by
  unfold applySelection
  cases ht : a.selectionTransform with
  | none => left; rfl
  | some transform =>
    dsimp only
    cases hres : transform ⟨s.selection, fu, fm, hid⟩ with
    | none => left; rfl
    | some out => right; exact ⟨transform, out, rfl, hres, rfl⟩

lemma applyOption_options_isSome (s : UIState) (a : FileAction)
    (k : String) (h : (lookupOpt s.options k).isSome) :
    (lookupOpt (applyOption s a).options k).isSome := by
  unfold applyOption
  cases a.option with
  | none => exact h
  | some opt =>
    exact isSome_lookupOpt_setOpt s.options opt.id k _ h

lemma selectRandomLoop_sub (random : Nat → Bool) (fids hid : List String)
    (k : Nat) :
    ∀ x ∈ selectRandomLoop random fids hid k, x ∈ fids ∧ x ∉ hid := by
  induction fids generalizing k with
  | nil =>
    intro x hx
    simp [selectRandomLoop] at hx
  | cons fid rest ih =>
    intro x hx
    unfold selectRandomLoop at hx
    by_cases hh : fid ∈ hid
    · rw [if_pos hh] at hx
      obtain ⟨h1, h2⟩ := ih k x hx
      exact ⟨List.mem_cons_of_mem _ h1, h2⟩
    · rw [if_neg hh] at hx
      by_cases hr : random k = true
      · rw [if_pos hr] at hx
        rcases List.mem_cons.mp hx with he | hm
        · subst he
          exact ⟨List.mem_cons_self _ _, hh⟩
        · obtain ⟨h1, h2⟩ := ih (k + 1) x hm
          exact ⟨List.mem_cons_of_mem _ h1, h2⟩
      · rw [if_neg hr] at hx
        obtain ⟨h1, h2⟩ := ih (k + 1) x hx
        exact ⟨List.mem_cons_of_mem _ h1, h2⟩

/-! ### Claims -/

/-- C1: for every state `s`, registry `r` containing an action `a` that
defines a sort-key selector, and every file universe, triggering `a` twice
consecutively yields a state whose sort direction is the opposite of the
direction after the single application, and the active sort key is `a`'s in
both resulting states. -/
theorem chonky_C1 (s : UIState) (r : List FileAction) (a : FileAction)
    (fu : List String) (fm : String → Option FileData) (hid : List String)
    (hfind : findAction r a.id = some a) (hsel : a.sortKeySelector.isSome) :
    (apply s r a.id fu fm hid).sortActionId = some a.id ∧
    (apply (apply s r a.id fu fm hid) r a.id fu fm hid).sortActionId =
      some a.id ∧
    (apply (apply s r a.id fu fm hid) r a.id fu fm hid).sortDirection =
      (apply s r a.id fu fm hid).sortDirection.toggle ∧
    (apply (apply s r a.id fu fm hid) r a.id fu fm hid).sortDirection ≠
      (apply s r a.id fu fm hid).sortDirection := by
  have h1id : (apply s r a.id fu fm hid).sortActionId = some a.id := by
    rw [apply_eq_of_findAction s r a.id a fu fm hid hfind,
        applySelection_sortActionId, applyOption_sortActionId,
        applyView_sortActionId, applySort_sortActionId_of_isSome s a hsel]
  have h2id : (apply (apply s r a.id fu fm hid) r a.id fu fm hid).sortActionId
      = some a.id := by
    rw [apply_eq_of_findAction _ r a.id a fu fm hid hfind,
        applySelection_sortActionId, applyOption_sortActionId,
        applyView_sortActionId, applySort_sortActionId_of_isSome _ a hsel]
  have h2dir :
      (apply (apply s r a.id fu fm hid) r a.id fu fm hid).sortDirection =
        (apply s r a.id fu fm hid).sortDirection.toggle := by
    rw [apply_eq_of_findAction _ r a.id a fu fm hid hfind,
        applySelection_sortDirection, applyOption_sortDirection,
        applyView_sortDirection,
        applySort_sortDirection_of_same _ a hsel h1id]
  refine ⟨h1id, h2id, h2dir, ?_⟩
  rw [h2dir]
  cases (apply s r a.id fu fm hid).sortDirection <;> decide

/-- Witness for C1: the `SortFilesBySize` action in the demo registry,
triggered twice from the initial state. -/
theorem chonky_C1_witness :
    findAction demoRegistry "sort_files_by_size" = some sortFilesBySize ∧
    sortFilesBySize.sortKeySelector.isSome = true ∧
    (apply (apply initialState demoRegistry "sort_files_by_size" []
        emptyFileMap []) demoRegistry "sort_files_by_size" []
        emptyFileMap []).sortDirection =
      (apply initialState demoRegistry "sort_files_by_size" []
        emptyFileMap []).sortDirection.toggle :=
  ⟨rfl, rfl,
    (chonky_C1 initialState demoRegistry sortFilesBySize []
      emptyFileMap [] rfl rfl).2.2.1⟩

/-- C2: for every state in which the flag of action `a`'s boolean-option
descriptor is already initialised in `s.options`, triggering `a` twice
consecutively returns the flag at `options[descriptor.id]` to exactly its
value in `s`. -/
theorem chonky_C2 (s : UIState) (r : List FileAction) (a : FileAction)
    (fu : List String) (fm : String → Option FileData) (hid : List String)
    (opt : FileActionOption) (b : Bool)
    (hfind : findAction r a.id = some a) (hopt : a.option = some opt)
    (hinit : lookupOpt s.options opt.id = some b) :
    lookupOpt
      (apply (apply s r a.id fu fm hid) r a.id fu fm hid).options
      opt.id = some b := by
  have hopts1 : (apply s r a.id fu fm hid).options =
      setOpt s.options opt.id (!b) := by
    rw [apply_eq_of_findAction s r a.id a fu fm hid hfind,
        applySelection_options, applyOption_options_of_some _ a opt hopt,
        applyView_options, applySort_options, hinit]
    rfl
  have hlook1 : lookupOpt (apply s r a.id fu fm hid).options opt.id =
      some (!b) := by
    rw [hopts1, lookupOpt_setOpt_self]
  have hopts2 :
      (apply (apply s r a.id fu fm hid) r a.id fu fm hid).options =
        setOpt (apply s r a.id fu fm hid).options opt.id (!(!b)) := by
    rw [apply_eq_of_findAction _ r a.id a fu fm hid hfind,
        applySelection_options, applyOption_options_of_some _ a opt hopt,
        applyView_options, applySort_options, hlook1]
    rfl
  rw [hopts2, lookupOpt_setOpt_self, Bool.not_not]

/-- Witness for C2: the `show_hidden` flag already set to `true` comes back
to `true` after two triggers. -/
theorem chonky_C2_witness :
    findAction [showHiddenFilesAction] "show_hidden_files" =
      some showHiddenFilesAction ∧
    showHiddenFilesAction.option = some ⟨"show_hidden", false⟩ ∧
    lookupOpt
      (apply (apply { initialState with options := [("show_hidden", true)] }
          [showHiddenFilesAction] "show_hidden_files" [] emptyFileMap [])
        [showHiddenFilesAction] "show_hidden_files" [] emptyFileMap
        []).options "show_hidden" = some true :=
  ⟨rfl, rfl,
    chonky_C2 { initialState with options := [("show_hidden", true)] }
      [showHiddenFilesAction] showHiddenFilesAction [] emptyFileMap []
      ⟨"show_hidden", false⟩ true rfl rfl rfl⟩

/-- C3: for every state whose options map does not yet contain the flag of
action `a`'s boolean-option descriptor, a single trigger initialises the
flag to its default and toggles it in the same step, leaving it at the
negation of the default value. -/
theorem chonky_C3 (s : UIState) (r : List FileAction) (a : FileAction)
    (fu : List String) (fm : String → Option FileData) (hid : List String)
    (opt : FileActionOption)
    (hfind : findAction r a.id = some a) (hopt : a.option = some opt)
    (hfresh : lookupOpt s.options opt.id = none) :
    lookupOpt (apply s r a.id fu fm hid).options opt.id =
      some (!opt.defaultValue) := by
  rw [apply_eq_of_findAction s r a.id a fu fm hid hfind,
      applySelection_options, applyOption_options_of_some _ a opt hopt,
      applyView_options, applySort_options, hfresh, lookupOpt_setOpt_self]
  rfl

/-- Witness for C3: the `show_hidden` option defaults to `false`, so its
first-ever trigger sets the flag to `true`. -/
theorem chonky_C3_witness :
    findAction [showHiddenFilesAction] "show_hidden_files" =
      some showHiddenFilesAction ∧
    showHiddenFilesAction.option = some ⟨"show_hidden", false⟩ ∧
    lookupOpt initialState.options "show_hidden" = none ∧
    lookupOpt
      (apply initialState [showHiddenFilesAction] "show_hidden_files" []
        emptyFileMap []).options "show_hidden" = some true :=
  ⟨rfl, rfl, rfl,
    chonky_C3 initialState [showHiddenFilesAction] showHiddenFilesAction
      [] emptyFileMap [] ⟨"show_hidden", false⟩ rfl rfl rfl⟩

/-- C4: for every state whose currently-active sort action identifier
differs from `a`'s, where `a` defines a sort-key selector, a single trigger
sets the sort key to `a` and the direction to ascending, regardless of the
prior direction. -/
theorem chonky_C4 (s : UIState) (r : List FileAction) (a : FileAction)
    (fu : List String) (fm : String → Option FileData) (hid : List String)
    (hfind : findAction r a.id = some a) (hsel : a.sortKeySelector.isSome)
    (hne : s.sortActionId ≠ some a.id) :
    (apply s r a.id fu fm hid).sortActionId = some a.id ∧
    (apply s r a.id fu fm hid).sortDirection = .asc := by
  constructor
  · rw [apply_eq_of_findAction s r a.id a fu fm hid hfind,
        applySelection_sortActionId, applyOption_sortActionId,
        applyView_sortActionId, applySort_sortActionId_of_isSome s a hsel]
  · rw [apply_eq_of_findAction s r a.id a fu fm hid hfind,
        applySelection_sortDirection, applyOption_sortDirection,
        applyView_sortDirection,
        applySort_sortDirection_of_ne s a hsel hne]

/-- Witness for C4: triggering `SortFilesBySize` from a state sorted
descending on another action resets the direction to ascending. -/
theorem chonky_C4_witness :
    findAction demoRegistry "sort_files_by_size" = some sortFilesBySize ∧
    sortFilesBySize.sortKeySelector.isSome = true ∧
    otherSortState.sortActionId ≠ some "sort_files_by_size" ∧
    (apply otherSortState demoRegistry "sort_files_by_size" []
      emptyFileMap []).sortDirection = SortDirection.asc :=
  ⟨rfl, rfl, by decide,
    (chonky_C4 otherSortState demoRegistry sortFilesBySize []
      emptyFileMap [] rfl rfl (by decide)).2⟩

/-- C5: applying an unknown action identifier is a no-op: the resulting
state equals the input state in every field. -/
theorem chonky_C5 (s : UIState) (r : List FileAction) (actionId : String)
    (fu : List String) (fm : String → Option FileData) (hid : List String)
    (h : findAction r actionId = none) :
    apply s r actionId fu fm hid = s :=
  apply_eq_of_findAction_none s r actionId fu fm hid h

/-- Witness for C5: the identifier `unknown_action` is absent from the demo
registry, so applying it leaves the initial state unchanged. -/
theorem chonky_C5_witness :
    findAction demoRegistry "unknown_action" = none ∧
    apply initialState demoRegistry "unknown_action" ["zxc"] emptyFileMap
      [] = initialState :=
  ⟨rfl,
    chonky_C5 initialState demoRegistry "unknown_action" ["zxc"]
      emptyFileMap [] rfl⟩

/-- C6: when action `a`'s selection transform returns "no change" (`none`)
on the data built from `s.selection`, the file universe, the file map and
the hidden ids, the resulting state's selection equals `s.selection`. -/
theorem chonky_C6 (s : UIState) (r : List FileAction) (a : FileAction)
    (fu : List String) (fm : String → Option FileData) (hid : List String)
    (transform : FileSelectionTransform)
    (hfind : findAction r a.id = some a)
    (ht : a.selectionTransform = some transform)
    (hres : transform ⟨s.selection, fu, fm, hid⟩ = none) :
    (apply s r a.id fu fm hid).selection = s.selection := by
  rw [apply_eq_of_findAction s r a.id a fu fm hid hfind]
  have hsel : (applyOption (applyView (applySort s a) a) a).selection =
      s.selection := by
    rw [applyOption_selection, applyView_selection, applySort_selection]
  have hres' : transform
      ⟨(applyOption (applyView (applySort s a) a) a).selection, fu, fm,
        hid⟩ = none := by
    rw [hsel]
    exact hres
  rw [applySelection_selection_none _ a fu fm hid transform ht hres', hsel]

/-- Witness for C6: an action whose transform always returns "no change"
leaves the selection of a one-file state untouched. -/
theorem chonky_C6_witness :
    findAction [noChangeAction] "no_change_action" = some noChangeAction ∧
    noChangeAction.selectionTransform = some noChangeTransform ∧
    noChangeTransform ⟨({ initialState with selection := ["zxc"] } :
      UIState).selection, ["zxc"], emptyFileMap, []⟩ = none ∧
    (apply { initialState with selection := ["zxc"] } [noChangeAction]
      "no_change_action" ["zxc"] emptyFileMap []).selection = ["zxc"] :=
  ⟨rfl, rfl, rfl,
    chonky_C6 { initialState with selection := ["zxc"] } [noChangeAction]
      noChangeAction ["zxc"] emptyFileMap [] noChangeTransform rfl rfl
      rfl⟩

/-- C7: the enablement predicate evaluates to disabled exactly when the
action requires a selection and the selection is empty, or the action
defines a file filter and no selected file, looked up in the file map,
satisfies it; otherwise the action is enabled. -/
theorem chonky_C7 (a : FileAction) (sel : List String)
    (fm : String → Option FileData) :
    actionEnabled a sel fm = false ↔
      (a.requiresSelection = true ∧ sel = []) ∨
      (∃ f, a.fileFilter = some f ∧ ∀ fid ∈ sel, f (fm fid) = false) := by
  unfold actionEnabled
  cases hreq : a.requiresSelection <;> cases hf : a.fileFilter <;>
    simp [List.any_eq_true, List.isEmpty_iff, Bool.and_eq_false_iff,
      Bool.not_eq_true]
  tauto

/-- Counterexample to C8 as stated: over an arbitrary registry, the
reducer does not by itself keep the selection inside the file-id universe —
a selection transform may select an identifier outside it. -/
theorem chonky_C8_counterexample :
    ¬ (∀ (r : List FileAction) (fu : List String) (t : UIState),
        Reachable r fu initialState t →
          (∀ k, (lookupOpt initialState.options k).isSome = true →
            (lookupOpt t.options k).isSome = true) ∧
          t.selection ⊆ fu) := by
  intro h
  have hreach : Reachable [ghostAction] ["zxc"] initialState
      (apply initialState [ghostAction] "ghost_selector" ["zxc"]
        emptyFileMap []) :=
    Reachable.step _ _ _ _ _ (Reachable.refl _)
  have hsub := (h [ghostAction] ["zxc"] _ hreach).2
  have hsel : (apply initialState [ghostAction] "ghost_selector" ["zxc"]
      emptyFileMap []).selection = ["ghost-file"] := rfl
  have hmem : "ghost-file" ∈ (apply initialState [ghostAction]
      "ghost_selector" ["zxc"] emptyFileMap []).selection := by
    rw [hsel]
    exact List.mem_singleton.mpr rfl
  have : "ghost-file" ∈ ["zxc"] := hsub hmem
  simp at this

/-- C8 (amended): along any sequence of reducer steps over a fixed
registry and file universe, every option flag present in the options map
stays present; and provided every selection transform of the registry only
ever selects identifiers from the file-id list handed to it, a selection
contained in the file universe stays contained in it. -/
theorem chonky_C8 (r : List FileAction) (fu : List String) (s t : UIState)
    (htr : ∀ a ∈ r, ∀ transform, a.selectionTransform = some transform →
      ∀ d out, transform d = some out → ∀ x ∈ out, x ∈ d.fileIds)
    (hreach : Reachable r fu s t) :
    (∀ k, (lookupOpt s.options k).isSome = true →
      (lookupOpt t.options k).isSome = true) ∧
    (s.selection ⊆ fu → t.selection ⊆ fu) := by
  induction hreach with
  | refl => exact ⟨fun _ h => h, fun h => h⟩
  | step w actionId fm hid hprev ih =>
    obtain ⟨ihOpt, ihSel⟩ := ih
    cases hfind : findAction r actionId with
    | none =>
      rw [apply_eq_of_findAction_none w r actionId fu fm hid hfind]
      exact ⟨ihOpt, ihSel⟩
    | some a =>
      have ha : a ∈ r := List.mem_of_find?_eq_some hfind
      rw [apply_eq_of_findAction w r actionId a fu fm hid hfind]
      constructor
      · intro k hk
        rw [applySelection_options]
        refine applyOption_options_isSome _ a k ?_
        rw [applyView_options, applySort_options]
        exact ihOpt k hk
      · intro hs
        have hws : w.selection ⊆ fu := ihSel hs
        have hYsel : (applyOption (applyView (applySort w a) a)
            a).selection = w.selection := by
          rw [applyOption_selection, applyView_selection,
            applySort_selection]
        rcases applySelection_selection_cases
            (applyOption (applyView (applySort w a) a) a) a fu fm hid with
          hcase | ⟨transform, out, htrans, hres, hout⟩
        · rw [hcase, hYsel]
          exact hws
        · rw [hout]
          intro x hx
          exact htr a ha transform htrans _ out hres x hx

/-- Witness for C8 (amended): one trigger of the `show_hidden` option
action from the initial state keeps all flags present and the selection
inside the universe. -/
theorem chonky_C8_witness :
    (∀ k, (lookupOpt initialState.options k).isSome = true →
      (lookupOpt (apply initialState [showHiddenFilesAction]
        "show_hidden_files" ["zxc"] emptyFileMap []).options k).isSome =
        true) ∧
    (initialState.selection ⊆ ["zxc"] →
      (apply initialState [showHiddenFilesAction] "show_hidden_files"
        ["zxc"] emptyFileMap []).selection ⊆ ["zxc"]) :=
  chonky_C8 [showHiddenFilesAction] ["zxc"] initialState _
    (by
      intro a ha transform htrans d out hres x hx
      rw [List.mem_singleton] at ha
      subst ha
      simp [showHiddenFilesAction] at htrans)
    (Reachable.step _ _ _ _ _ (Reachable.refl _))

/-- C9: the emoji icon component renders a span with the matching emoji
for the three mapped icon names, and forwards every other props value to
`ChonkyIconFA` unchanged. -/
theorem chonky_C9 (props : ChonkyIconProps) :
    (props.icon = "bentoEmoji" →
      MyEmojiIcon props = RenderedIcon.emojiSpan "🍱") ∧
    (props.icon = "angryEmoji" →
      MyEmojiIcon props = RenderedIcon.emojiSpan "😠") ∧
    (props.icon = "japanEmoji" →
      MyEmojiIcon props = RenderedIcon.emojiSpan "🗾") ∧
    (props.icon ≠ "bentoEmoji" → props.icon ≠ "angryEmoji" →
      props.icon ≠ "japanEmoji" →
      MyEmojiIcon props = RenderedIcon.chonkyIconFA props) := by
  refine ⟨?_, ?_, ?_, ?_⟩
  · intro h
    simp [MyEmojiIcon, myEmojiMap, h]
  · intro h
    simp [MyEmojiIcon, myEmojiMap, h]
  · intro h
    simp [MyEmojiIcon, myEmojiMap, h]
  · intro h1 h2 h3
    simp [MyEmojiIcon, myEmojiMap, h1, h2, h3]

/-- Witness for C9: the bento icon name renders its emoji, and an unmapped
icon name falls through to `ChonkyIconFA` with the props forwarded. -/
theorem chonky_C9_witness :
    MyEmojiIcon ⟨"bentoEmoji", none, none, none⟩ =
      RenderedIcon.emojiSpan "🍱" ∧
    MyEmojiIcon ⟨"customIcon", none, none, none⟩ =
      RenderedIcon.chonkyIconFA ⟨"customIcon", none, none, none⟩ :=
  ⟨(chonky_C9 ⟨"bentoEmoji", none, none, none⟩).1 rfl,
    (chonky_C9 ⟨"customIcon", none, none, none⟩).2.2.2 (by decide)
      (by decide) (by decide)⟩

/-- C10: whatever the outcome of the random draws, the selection returned
by the `selectRandomFiles` transform is a subset of the supplied file ids
and contains no hidden file id. -/
theorem chonky_C10 (random : Nat → Bool) (d : SelectionTransformData)
    (transform : FileSelectionTransform) (out : List String)
    (ht : (selectRandomFiles random).selectionTransform = some transform)
    (hout : transform d = some out) :
    ∀ x ∈ out, x ∈ d.fileIds ∧ x ∉ d.hiddenFileIds := by
  have htr : transform =
      fun d' => some (selectRandomLoop random d'.fileIds d'.hiddenFileIds
        0) := by
    have h := ht
    simp [selectRandomFiles] at h
    exact h.symm
  subst htr
  have hloop : selectRandomLoop random d.fileIds d.hiddenFileIds 0 =
      out := by
    simpa using hout
  intro x hx
  rw [← hloop] at hx
  exact selectRandomLoop_sub random d.fileIds d.hiddenFileIds 0 x hx

/-- Witness for C10: with every draw coming out true, the two-file
universe with one hidden file yields exactly the visible file, which is in
the universe and not hidden. -/
theorem chonky_C10_witness :
    "zxc" ∈ randomDemoData.fileIds ∧
    "zxc" ∉ randomDemoData.hiddenFileIds :=
  chonky_C10 (fun _ => true) randomDemoData
    (fun d' => some (selectRandomLoop (fun _ => true) d'.fileIds
      d'.hiddenFileIds 0))
    ["zxc"] rfl rfl "zxc" (by decide)

end Chonky
